import Mathlib

/-!
Shallow embedding of the plate-recognition utilities of the
Cambodia-ANPR-System repository (`util.py`), together with a
spec-modelled track-id lifecycle for the SORT track manager.

Strings are embedded as Lean `String`/`List Char`; the Python
dictionaries `DICT_CHAR_TO_INT` / `DICT_INT_TO_CHAR` are embedded as
association lists with a `find?`-based lookup, matching Python dict
key lookup on these small literal tables.
-/

namespace ANPR

/-- Embedding of `string.ascii_uppercase` from the Python standard
library, as the list of its characters. -/
def ascii_uppercase : List Char :=
  "ABCDEFGHIJKLMNOPQRSTUVWXYZ".data

/-- The digit characters `'0123456789'` used by `license_complies_format`. -/
def digits : List Char := "0123456789".data

/-- Embedding of `DICT_CHAR_TO_INT` from `util.py`: ambiguous-glyph letter → digit. -/
def DICT_CHAR_TO_INT : List (Char × Char) :=
  [('O', '0'), ('I', '1'), ('J', '3'), ('A', '4'), ('G', '6'), ('S', '5')]

/-- Embedding of `DICT_INT_TO_CHAR` from `util.py`: ambiguous-glyph digit → letter. -/
def DICT_INT_TO_CHAR : List (Char × Char) :=
  [('0', 'O'), ('1', 'I'), ('3', 'J'), ('4', 'A'), ('6', 'G'), ('5', 'S')]

/-- Python dict value lookup `d[c]` (as an `Option`), first matching key wins. -/
def lookup? (d : List (Char × Char)) (c : Char) : Option Char :=
  (d.find? (fun p => p.1 == c)).map Prod.snd

/-- Python membership test `c in d.keys()`. -/
def inKeys (d : List (Char × Char)) (c : Char) : Bool :=
  d.any (fun p => p.1 == c)

/-- The letter-position test of `license_complies_format`:
`text[j] in string.ascii_uppercase or text[j] in DICT_INT_TO_CHAR.keys()`. -/
def letter_ok (c : Char) : Bool :=
  ascii_uppercase.contains c || inKeys DICT_INT_TO_CHAR c

/-- The digit-position test of `license_complies_format`:
`text[j] in '0123456789' or text[j] in DICT_CHAR_TO_INT.keys()`. -/
def digit_ok (c : Char) : Bool :=
  digits.contains c || inKeys DICT_CHAR_TO_INT c

/-- Embedding of `license_complies_format` from `util.py`: length must be exactly 7;
positions 0,1,4,5,6 must be an ASCII uppercase letter or a key of
`DICT_INT_TO_CHAR`; positions 2,3 must be a digit or a key of
`DICT_CHAR_TO_INT`. -/
def license_complies_format (text : String) : Bool :=
  let cs := text.data
  if cs.length ≠ 7 then false
  else
    letter_ok (cs.getD 0 ' ') && letter_ok (cs.getD 1 ' ') &&
    digit_ok (cs.getD 2 ' ') && digit_ok (cs.getD 3 ' ') &&
    letter_ok (cs.getD 4 ' ') && letter_ok (cs.getD 5 ' ') &&
    letter_ok (cs.getD 6 ' ')


/-- The per-position `mapping` dictionary built inside `format_license`
(`util.py`): positions 0,1,4,5,6 use `DICT_INT_TO_CHAR`, positions 2,3 use
`DICT_CHAR_TO_INT`.  The Python dict has keys 0–6 only and is queried only
at `j ∈ range(7)`; the wildcard row is never reached. -/
def mapping : Nat → List (Char × Char)
  | 0 => DICT_INT_TO_CHAR
  | 1 => DICT_INT_TO_CHAR
  | 2 => DICT_CHAR_TO_INT
  | 3 => DICT_CHAR_TO_INT
  | 4 => DICT_INT_TO_CHAR
  | 5 => DICT_INT_TO_CHAR
  | 6 => DICT_INT_TO_CHAR
  | _ => []

/-- One position of the `format_license` loop body:
`mapping[j][text[j]] if text[j] in mapping[j].keys() else text[j]`. -/
def subst (d : List (Char × Char)) (c : Char) : Char :=
  (lookup? d c).getD c

/-- The `for j in range(7)` loop of `format_license`, at position offset `j`. -/
def format_chars : Nat → List Char → List Char
  | _, [] => []
  | j, c :: rest => subst (mapping j) c :: format_chars (j + 1) rest

/-- Embedding of `format_license` from `util.py`.  The Python code indexes
`text[0]`…`text[6]` unconditionally, so an input shorter than 7
characters raises `IndexError`; this is modelled by `none`.  On longer
inputs only the first 7 characters are read (and returned). -/
def format_license (text : String) : Option String :=
  if text.data.length < 7 then none
  else some ⟨format_chars 0 (text.data.take 7)⟩


/-- The strict-containment test of the `get_car` loop in `util.py`:
`x1 > xcar1 and y1 > ycar1 and x2 < xcar2 and y2 < ycar2`. -/
def plate_in_vehicle (x1 y1 x2 y2 : Int) (v : Int × Int × Int × Int × Int) : Bool :=
  x1 > v.1 && y1 > v.2.1 && x2 < v.2.2.1 && y2 < v.2.2.2.1

/-- Embedding of `get_car` from `util.py`: scan `vehicle_track_ids` in order and return
the first track whose box strictly contains the plate box; return the
sentinel `(-1,-1,-1,-1,-1)` when none does. -/
def get_car (license_plate : Int × Int × Int × Int × Int × Int)
    (vehicle_track_ids : List (Int × Int × Int × Int × Int)) :
    Int × Int × Int × Int × Int :=
  match vehicle_track_ids.find?
      (plate_in_vehicle license_plate.1 license_plate.2.1 license_plate.2.2.1
        license_plate.2.2.2.1) with
  | some v => v
  | none => (-1, -1, -1, -1, -1)



/-- Candidate normalization `text.upper().replace(' ', '')` from
`read_license_plate`. -/
def normalize_candidate (t : String) : String :=
  ⟨(t.data.map Char.toUpper).filter (fun c => c ≠ ' ')⟩

/-- Embedding of `read_license_plate` from `util.py`, with the external OCR call
abstracted: `none` input models `reader.readtext` raising (the
`except` branch), `some dets` models the returned detection list of
`(bbox, text, score)` triples.  The function scans detections in order,
normalizes each candidate text, and returns the formatted text paired
with the unchanged score for the first candidate passing
`license_complies_format`; otherwise the `(None, None)` sentinel,
modelled as `none`. -/
def read_license_plate {β α : Type}
    (ocr_result : Option (List (β × String × α))) : Option (String × α) :=
  match ocr_result with
  | none => none
  | some detections =>
    match detections.find?
        (fun d => license_complies_format (normalize_candidate d.2.1)) with
    | none => none
    | some d =>
      (format_license (normalize_candidate d.2.1)).map (fun s => (s, d.2.2))


/-- Modelled from the spec: the SORT tracker (`sort.py`, re-exported by
`anpr/tracking/__init__.py` as `Sort` / `KalmanBoxTracker`) is not under
`src/`; only its package declaration and callers are.  A `Track` here keeps
the fields of the spec's track bookkeeping that govern identity and
lifecycle: the unique integer id ("monotonically assigned, never reused")
and `time_since_update` (frames since the last successful match). -/
structure Track where
  id : Nat
  time_since_update : Nat
deriving DecidableEq

/-- Modelled from the spec: the TrackManager ("Sort") state — the set of
live tracks it exclusively owns, the next fresh id, and the occlusion
tolerance `max_age`. -/
structure SortState where
  tracks : List Track
  next_id : Nat
  max_age : Nat
deriving DecidableEq

/-- Modelled from the spec: one per-frame step of the TrackManager state
machine (§4.4), with the Kalman/Hungarian matching abstracted into the
`matched` predicate on track ids (a track whose detection keeps IOU ≥ 0.3
is an accepted match): predict ages every track; each matched track is
updated, resetting `time_since_update`; each of the `nNew` unmatched
detections spawns a track with a fresh id; tracks with
`time_since_update > max_age` are removed. -/
def sortStep (st : SortState) (matched : Nat → Bool) (nNew : Nat) : SortState :=
  let aged := st.tracks.map fun t =>
    if matched t.id then { t with time_since_update := 0 }
    else { t with time_since_update := t.time_since_update + 1 }
  let alive := aged.filter fun t => t.time_since_update ≤ st.max_age
  let born := (List.range nNew).map fun k => Track.mk (st.next_id + k) 0
  { st with tracks := alive ++ born, next_id := st.next_id + nNew }

/-- Modelled from the spec: a sequence of per-frame steps, processed
strictly in temporal order. -/
def sortRun (st : SortState) : List ((Nat → Bool) × Nat) → SortState
  | [] => st
  | s :: rest => sortRun (sortStep st s.1 s.2) rest

/-! Helper lemmas about the association-list lookups -/

lemma contains_iff {l : List Char} {c : Char} : l.contains c = true ↔ c ∈ l := by
  simp [List.contains]

lemma inKeys_iff {d : List (Char × Char)} {c : Char} :
    inKeys d c = true ↔ c ∈ d.map Prod.fst := by
  simp [inKeys, List.any_eq_true, List.mem_map]

lemma lookup?_eq_none {d : List (Char × Char)} {c : Char}
    (h : c ∉ d.map Prod.fst) : lookup? d c = none := by
  have hf : d.find? (fun p => p.1 == c) = none := by
    rw [List.find?_eq_none]
    intro p hp hpc
    exact h (List.mem_map.2 ⟨p, hp, by simpa using hpc⟩)
  simp [lookup?, hf]

lemma lookup?_mem {d : List (Char × Char)} {c v : Char}
    (h : lookup? d c = some v) : ∃ p ∈ d, p.1 = c ∧ p.2 = v := by
  unfold lookup? at h
  cases hf : d.find? (fun p => p.1 == c) with
  | none => rw [hf] at h; simp at h
  | some p =>
    rw [hf] at h
    refine ⟨p, List.mem_of_find?_eq_some hf, ?_, ?_⟩
    · have := List.find?_some hf; simpa using this
    · simpa using h

lemma lookup?_isSome {d : List (Char × Char)} {c : Char}
    (h : c ∈ d.map Prod.fst) : ∃ v, lookup? d c = some v := by
  obtain ⟨p, hp, hc⟩ := List.mem_map.1 h
  have hs : (d.find? (fun q => q.1 == c)).isSome :=
    List.find?_isSome.2 ⟨p, hp, by simp [hc]⟩
  obtain ⟨q, hq⟩ := Option.isSome_iff_exists.1 hs
  exact ⟨q.2, by simp [lookup?, hq]⟩

lemma subst_of_not_mem_keys {d : List (Char × Char)} {c : Char}
    (h : c ∉ d.map Prod.fst) : subst d c = c := by
  simp [subst, lookup?_eq_none h]

lemma subst_idem {d : List (Char × Char)}
    (hvals : ∀ p ∈ d, p.2 ∉ d.map Prod.fst) (c : Char) :
    subst d (subst d c) = subst d c := by
  cases h : lookup? d c with
  | none => simp [subst, h]
  | some v =>
    obtain ⟨p, hp, -, hv⟩ := lookup?_mem h
    have hnone : lookup? d v = none := lookup?_eq_none (hv ▸ hvals p hp)
    simp [subst, h, hnone]

lemma dict_int_to_char_vals_fresh :
    ∀ p ∈ DICT_INT_TO_CHAR, p.2 ∉ DICT_INT_TO_CHAR.map Prod.fst := by decide

lemma dict_char_to_int_vals_fresh :
    ∀ p ∈ DICT_CHAR_TO_INT, p.2 ∉ DICT_CHAR_TO_INT.map Prod.fst := by decide

/-! Character-class lemmas -/

lemma upper_not_int_key : ∀ c ∈ ascii_uppercase, c ∉ DICT_INT_TO_CHAR.map Prod.fst := by
  decide

lemma digit_not_char_key : ∀ c ∈ digits, c ∉ DICT_CHAR_TO_INT.map Prod.fst := by
  decide

lemma int_to_char_vals_upper : ∀ p ∈ DICT_INT_TO_CHAR, p.2 ∈ ascii_uppercase := by
  decide

lemma char_to_int_vals_digit : ∀ p ∈ DICT_CHAR_TO_INT, p.2 ∈ digits := by
  decide

lemma subst_letter_canon {c : Char} (h : letter_ok c = true) :
    subst DICT_INT_TO_CHAR c ∈ ascii_uppercase := by
  rcases Bool.or_eq_true_iff.mp h with hu | hk
  · have hc := contains_iff.1 hu
    rw [subst_of_not_mem_keys (upper_not_int_key c hc)]
    exact hc
  · obtain ⟨v, hv⟩ := lookup?_isSome (inKeys_iff.1 hk)
    obtain ⟨p, hp, -, hpv⟩ := lookup?_mem hv
    have hvu : v ∈ ascii_uppercase := hpv ▸ int_to_char_vals_upper p hp
    simpa [subst, hv] using hvu

lemma subst_digit_canon {c : Char} (h : digit_ok c = true) :
    subst DICT_CHAR_TO_INT c ∈ digits := by
  rcases Bool.or_eq_true_iff.mp h with hu | hk
  · have hc := contains_iff.1 hu
    rw [subst_of_not_mem_keys (digit_not_char_key c hc)]
    exact hc
  · obtain ⟨v, hv⟩ := lookup?_isSome (inKeys_iff.1 hk)
    obtain ⟨p, hp, -, hpv⟩ := lookup?_mem hv
    have hvd : v ∈ digits := hpv ▸ char_to_int_vals_digit p hp
    simpa [subst, hv] using hvd

lemma letter_ok_of_upper {c : Char} (h : c ∈ ascii_uppercase) : letter_ok c = true := by
  simp only [letter_ok, Bool.or_eq_true_iff]
  exact Or.inl (contains_iff.2 h)

lemma digit_ok_of_digit {c : Char} (h : c ∈ digits) : digit_ok c = true := by
  simp only [digit_ok, Bool.or_eq_true_iff]
  exact Or.inl (contains_iff.2 h)

/-! Structural lemmas about `format_chars` and `format_license` -/

lemma mapping_cases : ∀ j : Nat,
    mapping j = DICT_INT_TO_CHAR ∨ mapping j = DICT_CHAR_TO_INT ∨ mapping j = []
  | 0 => Or.inl rfl
  | 1 => Or.inl rfl
  | 2 => Or.inr (Or.inl rfl)
  | 3 => Or.inr (Or.inl rfl)
  | 4 => Or.inl rfl
  | 5 => Or.inl rfl
  | 6 => Or.inl rfl
  | _ + 7 => Or.inr (Or.inr rfl)

lemma format_chars_length : ∀ (j : Nat) (l : List Char),
    (format_chars j l).length = l.length
  | _, [] => rfl
  | j, _ :: rest => by simp [format_chars, format_chars_length (j + 1) rest]

lemma format_chars_idem : ∀ (j : Nat) (l : List Char),
    format_chars j (format_chars j l) = format_chars j l
  | _, [] => rfl
  | j, c :: rest => by
    simp only [format_chars, format_chars_idem (j + 1) rest, List.cons.injEq, and_true]
    rcases mapping_cases j with h | h | h <;> rw [h]
    · exact subst_idem dict_int_to_char_vals_fresh c
    · exact subst_idem dict_char_to_int_vals_fresh c
    · simp [subst, lookup?]

lemma format_chars_seven (a b c d e f g : Char) :
    format_chars 0 [a, b, c, d, e, f, g] =
      [subst DICT_INT_TO_CHAR a, subst DICT_INT_TO_CHAR b, subst DICT_CHAR_TO_INT c,
       subst DICT_CHAR_TO_INT d, subst DICT_INT_TO_CHAR e, subst DICT_INT_TO_CHAR f,
       subst DICT_INT_TO_CHAR g] := rfl

lemma format_license_of_length (t : String) (h : 7 ≤ t.data.length) :
    format_license t = some ⟨format_chars 0 (t.data.take 7)⟩ := by
  unfold format_license
  rw [if_neg (Nat.not_lt.2 h)]

lemma length_seven_decomp {l : List Char} (h : l.length = 7) :
    ∃ a b c d e f g, l = [a, b, c, d, e, f, g] := by
  rcases l with _ | ⟨a, _ | ⟨b, _ | ⟨c, _ | ⟨d, _ | ⟨e, _ | ⟨f, _ | ⟨g, _ | ⟨x, rest⟩⟩⟩⟩⟩⟩⟩⟩ <;>
    simp_all

/-- First-match characterization of `List.find?`, shared by the `get_car`
and `read_license_plate` loops. -/
lemma find?_first {α : Type} (p : α → Bool) :
    ∀ (l₁ : List α) (v : α) (l₂ : List α), p v = true →
      (∀ u ∈ l₁, p u = false) → (l₁ ++ v :: l₂).find? p = some v := by
  intro l₁
  induction l₁ with
  | nil =>
    intro v l₂ hv _
    simpa using List.find?_cons_of_pos _ hv
  | cons u l ih =>
    intro v l₂ hv h
    rw [List.cons_append, List.find?_cons_of_neg]
    · exact ih v l₂ hv (fun x hx => h x (List.mem_cons_of_mem _ hx))
    · simp [h u (List.mem_cons_self _ _)]

/-! Lemmas about the spec-modelled SORT lifecycle -/

lemma sortStep_keeps_matched {st : SortState} {m : Nat → Bool} {n : Nat} {i : Nat}
    (hm : m i = true) (h : ∃ u ∈ st.tracks, u.id = i) :
    ∃ u ∈ (sortStep st m n).tracks, u.id = i := by
  obtain ⟨u, hu, hui⟩ := h
  refine ⟨⟨i, 0⟩, ?_, rfl⟩
  unfold sortStep
  simp only [List.mem_append]
  left
  rw [List.mem_filter]
  refine ⟨List.mem_map.2 ⟨u, hu, ?_⟩, by simp⟩
  simp [hui, hm]

lemma sortRun_keeps_matched :
    ∀ (inputs : List ((Nat → Bool) × Nat)) (st : SortState) (i : Nat),
      (∃ u ∈ st.tracks, u.id = i) → (∀ s ∈ inputs, s.1 i = true) →
      ∃ u ∈ (sortRun st inputs).tracks, u.id = i
  | [], _, _, h, _ => h
  | s :: rest, st, i, h, hm => by
    rw [sortRun]
    exact sortRun_keeps_matched rest _ i
      (sortStep_keeps_matched (hm s (List.mem_cons_self _ _)) h)
      (fun s' hs' => hm s' (List.mem_cons_of_mem _ hs'))

lemma sortStep_id_old_or_fresh {st : SortState} {m : Nat → Bool} {n : Nat} :
    ∀ u ∈ (sortStep st m n).tracks,
      u.id ∈ st.tracks.map Track.id ∨ (st.next_id ≤ u.id ∧ u.id < st.next_id + n) := by
  intro u hu
  unfold sortStep at hu
  simp only [List.mem_append] at hu
  rcases hu with hu | hu
  · left
    rw [List.mem_filter] at hu
    obtain ⟨t, ht, hresult⟩ := List.mem_map.1 hu.1
    have hid : u.id = t.id := by
      rw [← hresult]
      by_cases hmt : m t.id <;> simp [hmt]
    rw [hid]
    exact List.mem_map_of_mem _ ht
  · right
    obtain ⟨k, hk, hresult⟩ := List.mem_map.1 hu
    rw [List.mem_range] at hk
    have hid : u.id = st.next_id + k := by rw [← hresult]
    constructor <;> omega

lemma sortStep_next_id (st : SortState) (m : Nat → Bool) (n : Nat) :
    (sortStep st m n).next_id = st.next_id + n := rfl

lemma sortRun_next_id_mono :
    ∀ (inputs : List ((Nat → Bool) × Nat)) (st : SortState),
      st.next_id ≤ (sortRun st inputs).next_id
  | [], _ => Nat.le_refl _
  | s :: rest, st => by
    rw [sortRun]
    refine Nat.le_trans ?_ (sortRun_next_id_mono rest (sortStep st s.1 s.2))
    rw [sortStep_next_id]
    exact Nat.le_add_right _ _

lemma sortStep_bounded {st : SortState} {m : Nat → Bool} {n : Nat}
    (h : ∀ u ∈ st.tracks, u.id < st.next_id) :
    ∀ u ∈ (sortStep st m n).tracks, u.id < (sortStep st m n).next_id := by
  intro u hu
  rw [sortStep_next_id]
  rcases sortStep_id_old_or_fresh u hu with hid | hid
  · obtain ⟨t, ht, htid⟩ := List.mem_map.1 hid
    have := h t ht
    omega
  · omega

lemma sortRun_bounded :
    ∀ (inputs : List ((Nat → Bool) × Nat)) (st : SortState),
      (∀ u ∈ st.tracks, u.id < st.next_id) →
      ∀ u ∈ (sortRun st inputs).tracks, u.id < (sortRun st inputs).next_id
  | [], _, h => h
  | s :: rest, st, h => by
    rw [sortRun]
    exact sortRun_bounded rest _ (sortStep_bounded h)

/-! Claim-side character classes, for the refinement claim C2 -/

/-- Claim wording: the character "resolves to a letter" when it is an
uppercase ASCII letter, or is a digit with an entry in the digit-to-letter
substitution table {0:O, 1:I, 3:J, 4:A, 6:G, 5:S}. -/
def resolves_to_letter (c : Char) : Prop :=
  c ∈ ascii_uppercase ∨ c ∈ ['0', '1', '3', '4', '6', '5']

/-- Claim wording: the character "resolves to a digit" when it is one of
'0'-'9', or is a letter with an entry in the letter-to-digit table
{O:0, I:1, J:3, A:4, G:6, S:5}. -/
def resolves_to_digit (c : Char) : Prop :=
  c ∈ digits ∨ c ∈ ['O', 'I', 'J', 'A', 'G', 'S']

lemma letter_ok_iff {c : Char} : letter_ok c = true ↔ resolves_to_letter c := by
  simp [letter_ok, resolves_to_letter, Bool.or_eq_true_iff, contains_iff, inKeys_iff,
    DICT_INT_TO_CHAR]

lemma digit_ok_iff {c : Char} : digit_ok c = true ↔ resolves_to_digit c := by
  simp [digit_ok, resolves_to_digit, Bool.or_eq_true_iff, contains_iff, inKeys_iff,
    DICT_CHAR_TO_INT]

/-! Claim theorems -/

/-- C1: `get_car` returns the first track in the list's iteration order
whose box strictly contains the plate box (`x1 > vehicle.x1` and
`y1 > vehicle.y1` and `x2 < vehicle.x2` and `y2 < vehicle.y2`), and the
sentinel `(-1,-1,-1,-1,-1)` when no track contains it; plate box
`[50,50,100,80]` against tracks `[10,10,200,200,id=1]`,
`[300,300,400,400,id=2]` resolves to id 1, and `[500,500,550,530]`
against the same tracks resolves to the sentinel. -/
theorem C1_get_car_first_containing_track :
    (∀ (lp : Int × Int × Int × Int × Int × Int) (ts : List (Int × Int × Int × Int × Int)),
      (∀ v ∈ ts, plate_in_vehicle lp.1 lp.2.1 lp.2.2.1 lp.2.2.2.1 v = false) →
      get_car lp ts = (-1, -1, -1, -1, -1)) ∧
    (∀ (lp : Int × Int × Int × Int × Int × Int) (ts₁ : List (Int × Int × Int × Int × Int))
        (v : Int × Int × Int × Int × Int) (ts₂ : List (Int × Int × Int × Int × Int)),
      plate_in_vehicle lp.1 lp.2.1 lp.2.2.1 lp.2.2.2.1 v = true →
      (∀ u ∈ ts₁, plate_in_vehicle lp.1 lp.2.1 lp.2.2.1 lp.2.2.2.1 u = false) →
      get_car lp (ts₁ ++ v :: ts₂) = v) ∧
    get_car (50, 50, 100, 80, 0, 0) [(10, 10, 200, 200, 1), (300, 300, 400, 400, 2)] =
      (10, 10, 200, 200, 1) ∧
    get_car (500, 500, 550, 530, 0, 0) [(10, 10, 200, 200, 1), (300, 300, 400, 400, 2)] =
      (-1, -1, -1, -1, -1) := by
  refine ⟨?_, ?_, by decide, by decide⟩
  · intro lp ts h
    unfold get_car
    rw [List.find?_eq_none.2 (fun v hv => by simp [h v hv])]
  · intro lp ts₁ v ts₂ hv h
    unfold get_car
    rw [find?_first _ ts₁ v ts₂ hv h]

/-- Witness for C1: the no-match branch applied to the empty track list. -/
theorem C1_get_car_first_containing_track_witness :
    get_car (0, 0, 0, 0, 0, 0) [] = (-1, -1, -1, -1, -1) :=
  C1_get_car_first_containing_track.1 (0, 0, 0, 0, 0, 0) [] (by simp)

/-- C2: `license_complies_format t = true` iff `t` has exactly 7
characters, positions 0,1,4,5,6 resolve to a letter and positions 2,3
resolve to a digit (directly or via the ambiguous-glyph substitution
tables); in particular `"ABC123"` and `"1234567"` are rejected. -/
theorem C2_license_complies_format_iff :
    (∀ t : String, license_complies_format t = true ↔
      t.data.length = 7 ∧
      resolves_to_letter (t.data.getD 0 ' ') ∧ resolves_to_letter (t.data.getD 1 ' ') ∧
      resolves_to_digit (t.data.getD 2 ' ') ∧ resolves_to_digit (t.data.getD 3 ' ') ∧
      resolves_to_letter (t.data.getD 4 ' ') ∧ resolves_to_letter (t.data.getD 5 ' ') ∧
      resolves_to_letter (t.data.getD 6 ' ')) ∧
    license_complies_format "ABC123" = false ∧
    license_complies_format "1234567" = false := by
  refine ⟨fun t => ?_, by decide, by decide⟩
  unfold license_complies_format
  by_cases h : t.length = 7
  · simp [h, Bool.and_eq_true, letter_ok_iff, digit_ok_iff, and_assoc]
  · simp [h]

/-- C3: `format_license` rewrites each of the 7 positions independently
through the position's substitution table (`DICT_INT_TO_CHAR` at letter
positions 0,1,4,5,6; `DICT_CHAR_TO_INT` at digit positions 2,3), keeping
characters without a table entry unchanged; in particular
`format_license "AB0OCDE" = "AB00CDE"` and
`format_license "0B12CDE" = "OB12CDE"`. -/
theorem C3_format_license_per_position :
    (∀ (a b c d e f g : Char) (t : String), t.data = [a, b, c, d, e, f, g] →
      format_license t = some ⟨[subst DICT_INT_TO_CHAR a, subst DICT_INT_TO_CHAR b,
        subst DICT_CHAR_TO_INT c, subst DICT_CHAR_TO_INT d, subst DICT_INT_TO_CHAR e,
        subst DICT_INT_TO_CHAR f, subst DICT_INT_TO_CHAR g]⟩) ∧
    format_license "AB0OCDE" = some "AB00CDE" ∧
    format_license "0B12CDE" = some "OB12CDE" := by
  refine ⟨?_, by decide, by decide⟩
  intro a b c d e f g t ht
  rw [format_license_of_length t (by rw [ht]; simp), ht]
  rfl

/-- Witness for C3: the per-position description applied to a concrete
7-character string. -/
theorem C3_format_license_per_position_witness :
    format_license "XY12ZWV" = some ⟨[subst DICT_INT_TO_CHAR 'X', subst DICT_INT_TO_CHAR 'Y',
      subst DICT_CHAR_TO_INT '1', subst DICT_CHAR_TO_INT '2', subst DICT_INT_TO_CHAR 'Z',
      subst DICT_INT_TO_CHAR 'W', subst DICT_INT_TO_CHAR 'V']⟩ :=
  C3_format_license_per_position.1 'X' 'Y' '1' '2' 'Z' 'W' 'V' "XY12ZWV" (by decide)

/-- C7: the two ambiguous-glyph tables are mutually inverse: following
`DICT_CHAR_TO_INT` and then `DICT_INT_TO_CHAR` (or vice versa) returns
to the original key, for every entry of each table. -/
theorem C7_substitution_tables_mutually_inverse :
    (DICT_CHAR_TO_INT.all fun p => lookup? DICT_INT_TO_CHAR p.2 == some p.1) = true ∧
    (DICT_INT_TO_CHAR.all fun p => lookup? DICT_CHAR_TO_INT p.2 == some p.1) = true := by
  decide

/-- Evaluation of `format_license` on a string built from a 7-character list. -/
lemma format_license_mk (l : List Char) (h : l.length = 7) :
    format_license ⟨l⟩ = some ⟨format_chars 0 l⟩ := by
  have hd : (String.mk l).data = l := rfl
  rw [format_license_of_length _ (by rw [hd, h]), hd,
    List.take_of_length_le (by omega)]

/-- C6: `format_license` leaves a fully canonical 7-character plate
(uppercase letters at positions 0,1,4,5,6 and decimal digits at
positions 2,3) unchanged, and is idempotent on every 7-character
input: formatting a formatted string returns it unchanged. -/
theorem C6_format_license_idempotent :
    (∀ (a b c d e f g : Char) (t : String), t.data = [a, b, c, d, e, f, g] →
      a ∈ ascii_uppercase → b ∈ ascii_uppercase → c ∈ digits → d ∈ digits →
      e ∈ ascii_uppercase → f ∈ ascii_uppercase → g ∈ ascii_uppercase →
      format_license t = some t) ∧
    (∀ t s : String, format_license t = some s → format_license s = some s) := by
  constructor
  · intro a b c d e f g t ht ha hb hc hd he hf hg
    have ht' : t = ⟨[a, b, c, d, e, f, g]⟩ := String.ext ht
    subst ht'
    rw [format_license_mk _ (by simp), format_chars_seven,
        subst_of_not_mem_keys (upper_not_int_key a ha),
        subst_of_not_mem_keys (upper_not_int_key b hb),
        subst_of_not_mem_keys (digit_not_char_key c hc),
        subst_of_not_mem_keys (digit_not_char_key d hd),
        subst_of_not_mem_keys (upper_not_int_key e he),
        subst_of_not_mem_keys (upper_not_int_key f hf),
        subst_of_not_mem_keys (upper_not_int_key g hg)]
  · intro t s hts
    unfold format_license at hts
    by_cases hlen : t.data.length < 7
    · rw [if_pos hlen] at hts
      simp at hts
    · rw [if_neg hlen] at hts
      have hs : s = ⟨format_chars 0 (t.data.take 7)⟩ := (Option.some.inj hts).symm
      subst hs
      have h7 : (format_chars 0 (t.data.take 7)).length = 7 := by
        rw [format_chars_length, List.length_take]
        omega
      rw [format_license_mk _ h7, format_chars_idem]

/-- Witness for C6: the canonical-plate branch applied to `"AB12CDE"`. -/
theorem C6_format_license_idempotent_witness :
    format_license "AB12CDE" = some "AB12CDE" :=
  C6_format_license_idempotent.1 'A' 'B' '1' '2' 'C' 'D' 'E' "AB12CDE" (by decide)
    (by decide) (by decide) (by decide) (by decide) (by decide) (by decide) (by decide)

/-- C8: on every input accepted by `license_complies_format`,
`format_license` succeeds and its output is fully canonical — uppercase
ASCII letters at positions 0,1,4,5,6 and decimal digits at positions
2,3 — and the output is itself accepted by `license_complies_format`. -/
theorem C8_format_license_output_canonical :
    ∀ t : String, license_complies_format t = true →
      ∃ s : String, format_license t = some s ∧
        s.data.getD 0 ' ' ∈ ascii_uppercase ∧ s.data.getD 1 ' ' ∈ ascii_uppercase ∧
        s.data.getD 2 ' ' ∈ digits ∧ s.data.getD 3 ' ' ∈ digits ∧
        s.data.getD 4 ' ' ∈ ascii_uppercase ∧ s.data.getD 5 ' ' ∈ ascii_uppercase ∧
        s.data.getD 6 ' ' ∈ ascii_uppercase ∧
        license_complies_format s = true := by
  intro t h
  have hlen : t.data.length = 7 := by
    by_contra hne
    unfold license_complies_format at h
    rw [if_pos hne] at h
    exact absurd h (by simp)
  obtain ⟨a, b, c, d, e, f, g, hl⟩ := length_seven_decomp hlen
  have ht : t = ⟨[a, b, c, d, e, f, g]⟩ := String.ext hl
  subst ht
  have hok : letter_ok a = true ∧ letter_ok b = true ∧ digit_ok c = true ∧
      digit_ok d = true ∧ letter_ok e = true ∧ letter_ok f = true ∧
      letter_ok g = true := by
    unfold license_complies_format at h
    rw [if_neg (by simp)] at h
    simpa [Bool.and_eq_true, and_assoc] using h
  obtain ⟨ha, hb, hc, hd, he, hf, hg⟩ := hok
  refine ⟨⟨format_chars 0 [a, b, c, d, e, f, g]⟩, format_license_mk _ (by simp), ?_⟩
  rw [format_chars_seven]
  have ca := subst_letter_canon ha
  have cb := subst_letter_canon hb
  have cc := subst_digit_canon hc
  have cd := subst_digit_canon hd
  have ce := subst_letter_canon he
  have cf := subst_letter_canon hf
  have cg := subst_letter_canon hg
  refine ⟨ca, cb, cc, cd, ce, cf, cg, ?_⟩
  unfold license_complies_format
  rw [if_neg (by simp)]
  simp only [Bool.and_eq_true]
  exact ⟨⟨⟨⟨⟨⟨letter_ok_of_upper ca, letter_ok_of_upper cb⟩, digit_ok_of_digit cc⟩,
    digit_ok_of_digit cd⟩, letter_ok_of_upper ce⟩, letter_ok_of_upper cf⟩,
    letter_ok_of_upper cg⟩

/-- Witness for C8: applied to the accepted plate `"AB12CDE"`. -/
theorem C8_format_license_output_canonical_witness :
    ∃ s : String, format_license "AB12CDE" = some s ∧
      s.data.getD 0 ' ' ∈ ascii_uppercase ∧ s.data.getD 1 ' ' ∈ ascii_uppercase ∧
      s.data.getD 2 ' ' ∈ digits ∧ s.data.getD 3 ' ' ∈ digits ∧
      s.data.getD 4 ' ' ∈ ascii_uppercase ∧ s.data.getD 5 ' ' ∈ ascii_uppercase ∧
      s.data.getD 6 ' ' ∈ ascii_uppercase ∧
      license_complies_format s = true :=
  C8_format_license_output_canonical "AB12CDE" (by decide)

/-- C9: the all-digit 7-character string `"1034560"` is accepted by
`license_complies_format` even though it contains no letter at all —
every one of its characters is a decimal digit. -/
theorem C9_all_digit_string_accepted :
    license_complies_format "1034560" = true ∧
    ("1034560".data.all fun c => digits.contains c) = true := by
  decide

/-- An accepted plate text has exactly 7 characters. -/
lemma license_complies_length {t : String} (h : license_complies_format t = true) :
    t.data.length = 7 := by
  by_contra hne
  unfold license_complies_format at h
  rw [if_pos hne] at h
  exact absurd h (by simp)

/-- Unfolding equation of `read_license_plate` on a successful OCR call. -/
lemma read_license_plate_some {β α : Type} (dets : List (β × String × α)) :
    read_license_plate (some dets) =
      match dets.find? (fun d => license_complies_format (normalize_candidate d.2.1)) with
      | none => none
      | some d => (format_license (normalize_candidate d.2.1)).map (fun s => (s, d.2.2)) :=
  rfl

/-- C10: `format_license` fails (the Python code would raise `IndexError`)
exactly on inputs shorter than 7 characters; the precondition holds at its
only call site, since `license_complies_format` acceptance forces length 7,
and in particular the candidate on which `read_license_plate` calls
`format_license` — the one its scan finds — satisfies it. -/
theorem C10_format_license_precondition :
    (∀ t : String, t.data.length < 7 → format_license t = none) ∧
    (∀ t : String, license_complies_format t = true →
      t.data.length = 7 ∧ ∃ s, format_license t = some s) ∧
    (∀ (dets : List (Unit × String × Unit)) (d : Unit × String × Unit),
      dets.find? (fun d => license_complies_format (normalize_candidate d.2.1)) = some d →
      ∃ s, format_license (normalize_candidate d.2.1) = some s) := by
  refine ⟨?_, ?_, ?_⟩
  · intro t h
    unfold format_license
    rw [if_pos h]
  · intro t h
    have hlen := license_complies_length h
    exact ⟨hlen, ⟨_, format_license_of_length t (by omega)⟩⟩
  · intro dets d hfind
    have hc := List.find?_some hfind
    have hlen := license_complies_length (by simpa using hc)
    exact ⟨_, format_license_of_length _ (by omega)⟩

/-- Witness for C10: a 2-character input makes `format_license` fail. -/
theorem C10_format_license_precondition_witness :
    format_license "AB" = none :=
  C10_format_license_precondition.1 "AB" (by decide)

/-- C5: `read_license_plate` never raises: it returns the sentinel `none`
when the OCR call fails or when no candidate (upper-cased, spaces removed)
passes `license_complies_format`, and otherwise returns, for the first
complying candidate in detection order, its formatted text paired with the
OCR confidence score passed through unchanged. -/
theorem C5_read_license_plate_sentinel_or_first :
    (∀ (β α : Type), read_license_plate (β := β) (α := α) none = none) ∧
    (∀ (β α : Type) (dets : List (β × String × α)),
      (∀ d ∈ dets, license_complies_format (normalize_candidate d.2.1) = false) →
      read_license_plate (some dets) = none) ∧
    (∀ (β α : Type) (l₁ : List (β × String × α)) (d : β × String × α)
        (l₂ : List (β × String × α)),
      license_complies_format (normalize_candidate d.2.1) = true →
      (∀ u ∈ l₁, license_complies_format (normalize_candidate u.2.1) = false) →
      ∃ s : String, format_license (normalize_candidate d.2.1) = some s ∧
        read_license_plate (some (l₁ ++ d :: l₂)) = some (s, d.2.2)) := by
  refine ⟨fun β α => rfl, ?_, ?_⟩
  · intro β α dets h
    rw [read_license_plate_some,
      List.find?_eq_none.2 (fun u hu => by simp [h u hu])]
  · intro β α l₁ d l₂ hd h
    have hlen := license_complies_length hd
    obtain ⟨s, hs⟩ : ∃ s, format_license (normalize_candidate d.2.1) = some s :=
      ⟨_, format_license_of_length _ (by omega)⟩
    refine ⟨s, hs, ?_⟩
    rw [read_license_plate_some, find?_first _ l₁ d l₂ hd h]
    show Option.map (fun s => (s, d.2.2)) (format_license (normalize_candidate d.2.1)) =
      some (s, d.2.2)
    rw [hs, Option.map_some']

/-- Witness for C5: the empty detection list yields the sentinel. -/
theorem C5_read_license_plate_sentinel_or_first_witness :
    read_license_plate (some ([] : List (Unit × String × Nat))) = none :=
  C5_read_license_plate_sentinel_or_first.2.1 Unit Nat [] (by simp)

/-- C4 (modelled from the spec; `sort.py` is not under `src/`): in the
spec-modelled TrackManager lifecycle, a track that is matched on every
frame keeps its id on every frame for as long as the run lasts; every
track after a step either keeps an id that was already live or gets a
fresh id drawn from `[next_id, next_id + n)`; `next_id` never decreases
across a run; and when all live ids are below `next_id` initially, they
stay below the (monotone) `next_id` forever — so an id freed by a dead
track is never assigned to any later-created track. -/
theorem C4_track_id_stable_never_reused :
    (∀ (inputs : List ((Nat → Bool) × Nat)) (st : SortState) (i : Nat),
      (∃ u ∈ st.tracks, u.id = i) → (∀ s ∈ inputs, s.1 i = true) →
      ∃ u ∈ (sortRun st inputs).tracks, u.id = i) ∧
    (∀ (st : SortState) (m : Nat → Bool) (n : Nat), ∀ u ∈ (sortStep st m n).tracks,
      u.id ∈ st.tracks.map Track.id ∨ (st.next_id ≤ u.id ∧ u.id < st.next_id + n)) ∧
    (∀ (inputs : List ((Nat → Bool) × Nat)) (st : SortState),
      st.next_id ≤ (sortRun st inputs).next_id) ∧
    (∀ (inputs : List ((Nat → Bool) × Nat)) (st : SortState),
      (∀ u ∈ st.tracks, u.id < st.next_id) →
      ∀ u ∈ (sortRun st inputs).tracks, u.id < (sortRun st inputs).next_id) :=
  ⟨sortRun_keeps_matched, fun _ _ _ => sortStep_id_old_or_fresh, sortRun_next_id_mono,
    sortRun_bounded⟩

/-- Witness for C4: a track with id 5, matched on the single frame of the
run, is still live with id 5 afterwards. -/
theorem C4_track_id_stable_never_reused_witness :
    ∃ u ∈ (sortRun ⟨[⟨5, 0⟩], 6, 1⟩ [(fun _ => true, 2)]).tracks, u.id = 5 :=
  C4_track_id_stable_never_reused.1 [(fun _ => true, 2)] ⟨[⟨5, 0⟩], 6, 1⟩ 5
    ⟨⟨5, 0⟩, by simp, rfl⟩ (by simp)

end ANPR
